import Mathlib

/-!
Verification of the Pixel-Checker repository: a shallow embedding of the
batching queue, rate limiter, credential refresh protocol, remote client,
scanner classification, cell-id mapping and sender of the Python sources,
together with proofs of the stated properties.

Conventions of the embedding:
* Python numbers (costs, seconds, timestamps) are rationals `ℚ`;
  `datetime.now()` / event-loop time is passed explicitly as a `now : ℚ`
  argument to each operation that reads the clock.
* Python dicts keyed by price category are total functions `ℚ → _`
  (a missing key is the default value `[]` / `none`); this matches the
  source because categories are never deleted, only set to `[]`.
* `async` methods whose awaits are only lock acquisition / sleeps are pure
  state transformers; sleeping is modelled by returning the advanced clock.
-/

namespace PixelChecker

/-- Model of `src/src/bot/topic_manager/msg_formatter.py`, dataclass `PriceMessage`. -/
structure PriceMessage where
  cost : ℚ
  x : ℤ
  y : ℤ
  link : String
  timestamp : ℚ
  deriving DecidableEq, Repr

/-- A single quote character, used by the message format strings. -/
def squote : String := String.singleton (Char.ofNat 39)

namespace MessageFormatter

/-- Model of `MessageFormatter.format_message`: an HTML anchor whose href is
the link, quoted with single quotes, whose text is the coordinates. -/
def format_message (msg : PriceMessage) : String :=
  "<b><a href=" ++ squote ++ msg.link ++ squote ++ ">" ++
    toString msg.x ++ "," ++ toString msg.y ++ "</a></b>"

/-- The footer appended by `MessageFormatter.format_batch_message`: a newline,
a rule of equals signs as long as the 20-character author line, and the
author line. -/
def batch_footer : String :=
  "\n" ++ String.mk (List.replicate 20 (Char.ofNat 61)) ++ "\nauthor: @odincryptan\n"

/-- Model of `MessageFormatter.format_batch_message`: the formatted lines followed by
the footer, joined with `"\n\n"`. -/
def format_batch_message (messages : List PriceMessage) : String :=
  String.intercalate "\n\n" (messages.map format_message ++ [batch_footer])

end MessageFormatter

/-- Model of `src/src/bot/topic_manager/queue.py`, class `MessageQueue`.
`message_queues` and `first_message_time` are the two dicts of the source. -/
structure MessageQueue where
  min_batch_size : ℕ
  max_batch_size : ℕ
  incomplete_batch_timeout : ℚ
  message_queues : ℚ → List PriceMessage
  first_message_time : ℚ → Option ℚ

namespace MessageQueue

/-- The queue state right after `MessageQueue.__init__`: empty queues, no
first-message times. -/
def init (min_batch_size max_batch_size : ℕ) (incomplete_batch_timeout : ℚ) :
    MessageQueue :=
  ⟨min_batch_size, max_batch_size, incomplete_batch_timeout,
   fun _ => [], fun _ => none⟩

/-- Model of `MessageQueue.add_message`: create a `PriceMessage` stamped with the
current time and append it to the queue of its price category
(`self.message_queues.setdefault(cost, []).append(message)`).
Note the source does not touch `first_message_time` here. -/
def add_message (q : MessageQueue) (cost : ℚ) (x y : ℤ) (link : String)
    (now : ℚ) : MessageQueue :=
  let message : PriceMessage := ⟨cost, x, y, link, now⟩
  { q with message_queues :=
      Function.update q.message_queues cost (q.message_queues cost ++ [message]) }

/-- Model of the private method `_get_last_messages` of `MessageQueue`: the
slice of the last `max_batch_size` entries (natural subtraction plays the
role of `max(0, len(messages) - self.max_batch_size)`). -/
def get_last_messages (q : MessageQueue) (messages : List PriceMessage) :
    List PriceMessage :=
  if messages ≠ [] then messages.drop (messages.length - q.max_batch_size)
  else []

/-- Model of `MessageQueue.get_ready_batches`, returning the dict of ready batches
together with the updated queue state.  Per category: an empty queue drops its
first-message time; a non-empty queue records `current_time` as its
first-message time if none is recorded yet; a batch is yielded when the
backlog has reached `min_batch_size` (then capped via `_get_last_messages`)
or else when `incomplete_batch_timeout` seconds have passed since the
recorded first-message time (then the whole backlog). -/
def get_ready_batches (q : MessageQueue) (now : ℚ) :
    (ℚ → Option (List PriceMessage)) × MessageQueue :=
  let batches : ℚ → Option (List PriceMessage) := fun price_category =>
    let messages := q.message_queues price_category
    if messages = [] then none
    else
      let t0 := (q.first_message_time price_category).getD now
      let time_since_first := now - t0
      if q.min_batch_size ≤ messages.length then
        some (q.get_last_messages messages)
      else if 0 < messages.length ∧ q.incomplete_batch_timeout ≤ time_since_first then
        some messages
      else none
  let first_after : ℚ → Option ℚ := fun price_category =>
    if q.message_queues price_category = [] then none
    else some ((q.first_message_time price_category).getD now)
  (batches, { q with first_message_time := first_after })

/-- Model of `MessageQueue.clear_sent_messages`: set the category's queue to `[]` and
pop its first-message time. -/
def clear_sent_messages (q : MessageQueue) (price_category : ℚ) : MessageQueue :=
  { q with
    message_queues := Function.update q.message_queues price_category []
    first_message_time := Function.update q.first_message_time price_category none }

/-- Model of `MessageQueue.flush_all_queues`: every non-empty queue yields its last
`max_batch_size` messages and is emptied; `first_message_time` is not
touched by the source. -/
def flush_all_queues (q : MessageQueue) :
    (ℚ → Option (List PriceMessage)) × MessageQueue :=
  (fun price_category =>
      if q.message_queues price_category = [] then none
      else some (q.get_last_messages (q.message_queues price_category)),
   { q with message_queues := fun _ => [] })

/-- The Queue-State invariant of the spec: a first-message timestamp is
present iff the category's pending sequence is non-empty. -/
def time_inv (q : MessageQueue) : Prop :=
  ∀ price_category : ℚ,
    (q.first_message_time price_category).isSome = true ↔
      q.message_queues price_category ≠ []

end MessageQueue

namespace TopicManager

/-- One iteration of the loop body of `TopicManager._process_message_queues`
for a ready category: when the topic id was resolved and
`send_batch_to_topic` returned `True`, `clear_sent_messages` is called;
otherwise (topic lookup failed, or the send returned `False`) the queue is
left untouched. -/
def process_category (q : MessageQueue) (price_category : ℚ)
    (topic_found send_ok : Bool) : MessageQueue :=
  if topic_found then
    if send_ok then q.clear_sent_messages price_category else q
  else q

end TopicManager

/-- Model of `src/src/bot/topic_manager/rate_limiter.py`, class `RateLimiter`.
Clock values are event-loop seconds as rationals. -/
structure RateLimiter where
  min_send_interval : ℚ
  max_group_messages_per_minute : ℕ
  last_send_time : ℚ
  group_message_count : ℕ
  group_reset_time : ℚ
  consecutive_errors : ℕ
  deriving DecidableEq, Repr

namespace RateLimiter

/-- Model of `RateLimiter.check_group_limit`: lazily reset the per-minute window when
60 seconds have passed since `group_reset_time`; if the counter has reached
the cap, sleep until the window ends (a non-positive wait sleeps 0 seconds)
and reset the counter and window start.  Returns the updated state and the
time at which the call returns. -/
def check_group_limit (s : RateLimiter) (now : ℚ) : RateLimiter × ℚ :=
  let s1 :=
    if 60 ≤ now - s.group_reset_time then
      { s with group_message_count := 0, group_reset_time := now }
    else s
  if s1.max_group_messages_per_minute ≤ s1.group_message_count then
    let wait_time := 60 - (now - s1.group_reset_time)
    let after := now + max wait_time 0
    ({ s1 with group_message_count := 0, group_reset_time := after }, after)
  else (s1, now)

/-- Model of `RateLimiter.wait_if_needed`: sleep the remainder of
`min_send_interval` since `last_send_time`; returns the time at which the
call returns (the state is unchanged). -/
def wait_if_needed (s : RateLimiter) (now : ℚ) : ℚ :=
  let time_since_last := now - s.last_send_time
  if time_since_last < s.min_send_interval then
    now + (s.min_send_interval - time_since_last)
  else now

/-- Model of `RateLimiter.update_after_send`: record the send time, bump the window
counter, clear the consecutive-error count. -/
def update_after_send (s : RateLimiter) (now : ℚ) : RateLimiter :=
  { s with
    last_send_time := now
    group_message_count := s.group_message_count + 1
    consecutive_errors := 0 }

/-- One send through the limiter as performed by
`MessageSender.send_batch_to_topic`: `check_group_limit`, then
`wait_if_needed`, then the send is recorded with `update_after_send`.
Returns the updated state and the time at which the send happened. -/
def send_step (s : RateLimiter) (now : ℚ) : RateLimiter × ℚ :=
  let cg := s.check_group_limit now
  let send_time := cg.1.wait_if_needed cg.2
  (cg.1.update_after_send send_time, send_time)

/-- A sequence of sends through one `RateLimiter`: the `k`-th send is
requested `delays[k]` seconds after the previous send completed.  Returns
the list of recorded send times and the final state. -/
def run_trace (s : RateLimiter) (now : ℚ) : List ℚ → List ℚ × RateLimiter
  | [] => ([], s)
  | d :: ds =>
    let step := s.send_step (now + d)
    let rest := run_trace step.1 step.2 ds
    (step.2 :: rest.1, rest.2)

/-- How many recorded send times fall inside the rolling 60-second window
`(t, t + 60]`. -/
def sends_in_window (times : List ℚ) (t : ℚ) : ℕ :=
  (times.filter fun u => decide (t < u ∧ u ≤ t + 60)).length

end RateLimiter

/-!
`src/src/api/tokens.py`, class `TokenManager`: the single-flight refresh
protocol.  `get_valid_access_token` checks `_is_token_expired()` without
holding any lock and, if expired, enters `_refresh_token_if_needed`, which
acquires `_refresh_lock`, re-checks expiry, and only then performs the
refresh — the lock is held for the whole refresh, so the locked section is
one atomic step of the cooperative scheduler.  The model below is the
success path of `_perform_token_refresh` (HTTP 200 / `success: true`),
which stores a fresh future `token_expires_at`.  Each of `n` concurrent
callers of `get_valid_access_token` is a small state machine:

* `start`   — about to run the unlocked expiry pre-check (line 70);
* `waiting` — saw an expired token and is blocked on `_refresh_lock`;
* `done`    — returned from `get_valid_access_token`.

`TokenStep` is the interleaving semantics: any caller may take its next
step at any time.
-/

inductive CallerState
  | start
  | waiting
  | done
  deriving DecidableEq, Repr

/-- Shared state of the token manager together with the `n` callers:
whether `_is_token_expired()` currently holds, how many refresh requests
have been issued, and each caller's position. -/
structure TokenState (n : ℕ) where
  expired : Bool
  refreshCount : ℕ
  callers : Fin n → CallerState

/-- State at the moment the `n` callers simultaneously invoke
`get_valid_access_token` on an expired credential. -/
def TokenState.init (n : ℕ) : TokenState n :=
  ⟨true, 0, fun _ => .start⟩

/-- One step of one caller, `src/src/api/tokens.py` lines 68–97:
* `check_expired` / `check_valid`: the unlocked pre-check of
  `get_valid_access_token`; an expired token sends the caller to the lock
  queue, a valid one returns it immediately.
* `refresh`: a caller holding `_refresh_lock` whose re-check still sees an
  expired token issues one refresh request and awaits it while holding the
  lock; on success the token becomes valid.
* `lock_recheck`: a caller acquiring `_refresh_lock` after the token was
  already refreshed returns without issuing a request. -/
inductive TokenStep {n : ℕ} : TokenState n → TokenState n → Prop
  | check_expired (s : TokenState n) (i : Fin n)
      (hc : s.callers i = .start) (he : s.expired = true) :
      TokenStep s { s with callers := Function.update s.callers i .waiting }
  | check_valid (s : TokenState n) (i : Fin n)
      (hc : s.callers i = .start) (he : s.expired = false) :
      TokenStep s { s with callers := Function.update s.callers i .done }
  | refresh (s : TokenState n) (i : Fin n)
      (hc : s.callers i = .waiting) (he : s.expired = true) :
      TokenStep s
        { expired := false
          refreshCount := s.refreshCount + 1
          callers := Function.update s.callers i .done }
  | lock_recheck (s : TokenState n) (i : Fin n)
      (hc : s.callers i = .waiting) (he : s.expired = false) :
      TokenStep s { s with callers := Function.update s.callers i .done }

/-- All interleavings: reflexive-transitive closure of single caller steps. -/
def TokenReachable {n : ℕ} : TokenState n → TokenState n → Prop :=
  Relation.ReflTransGen TokenStep

/-!
`src/src/api/api.py`, `api_get_with_refresh`: the remote client.  The
environment fixes what the world would answer: the token produced by the
first `get_valid_access_token` call, the status of the first request
(`none` = the request raised a transport error), and — in case of a 401 —
the token produced after the forced invalidation and the status of the
retried request.
-/

/-- The ways `api_get_with_refresh` can come back to its caller. -/
inductive ApiOutcome
  | error_response (status : ℕ)  -- the local `ErrorResponse` stub (status 401)
  | response (status : ℕ)        -- an HTTP response from the remote server
  | transport_error              -- the request raised and the exception propagates
  deriving DecidableEq, Repr

/-- Environment of one `api_get_with_refresh` call. -/
structure ApiEnv where
  token1 : Option String
  first_status : Option ℕ
  token2 : Option String
  second_status : Option ℕ
  deriving DecidableEq, Repr

/-- Observable result of one `api_get_with_refresh` call: what is returned,
how many HTTP requests for the url were issued, and whether
`token_manager.token_expires_at` was forced to `now` (credential
invalidation). -/
structure ApiResult where
  outcome : ApiOutcome
  requests : ℕ
  invalidated : Bool
  deriving DecidableEq, Repr

/-- Model of `api_get_with_refresh` (lines 21–71): no usable token returns the
`ErrorResponse` stub without any request; a first response of status 401
forces invalidation (`token_expires_at = datetime.now()`), re-acquires a
token and — if one was obtained — retries the request exactly once,
returning the second response; any other first status is returned as is; a
transport error propagates. -/
def api_get_with_refresh (env : ApiEnv) : ApiResult :=
  match env.token1 with
  | none => ⟨.error_response 401, 0, false⟩
  | some _ =>
    match env.first_status with
    | none => ⟨.transport_error, 1, false⟩
    | some status =>
      if status = 401 then
        match env.token2 with
        | none => ⟨.response 401, 1, true⟩
        | some _ =>
          match env.second_status with
          | none => ⟨.transport_error, 2, true⟩
          | some status2 => ⟨.response status2, 2, true⟩
      else ⟨.response status, 1, false⟩

/-!
`src/src/scanner/scanner.py`, `PixelScanner._process_successful_response`:
classification of a successful (HTTP 200) cell response.
-/

/-- The `CellStatus` enum of the scanner. -/
inductive CellStatus
  | for_mint
  | occupied
  | error
  | available
  | for_mint_not_available
  deriving DecidableEq, Repr

/-- The cost/status classification of `_process_successful_response`
(lines 143–162): an empty `itemAddress` means an unclaimed cell with the
sentinel cost 1, `for_mint` when available and `for_mint_not_available`
otherwise; a non-empty `itemAddress` takes `nextPrice` scaled by `1e9`
(`cost and cost / 1_000_000_000`: Python `and` keeps a zero price as is)
and is `available` / `occupied` by the availability flag. -/
def process_successful_response (itemAddress : String) (isAvailable : Bool)
    (nextPrice : ℕ) : ℚ × CellStatus :=
  if itemAddress = "" then
    (1, if isAvailable then .for_mint else .for_mint_not_available)
  else
    ((if nextPrice = 0 then 0 else (nextPrice : ℚ) / 1000000000),
     if isAvailable then .available else .occupied)

/-!
`src/src/service/utils.py`, `get_id`, with the configured constants of
`src/src/config.py` (defaults of `BASE_ID`, `BASE_START`, `BASE_END`).
-/

/-- Default of the configured `BASE_ID` (262401). -/
def BASE_ID : ℤ := 262401

/-- Default of the configured `BASE_START` (256), the lower grid bound. -/
def BASE_START : ℤ := 256

/-- Default of the configured `BASE_END` (657), the upper grid bound. -/
def BASE_END : ℤ := 657

/-- The numeric cell id, `BASE_ID + (x - BASE_START) + (y - BASE_START) * 1024`. -/
def get_id_val (x y : ℤ) : ℤ :=
  BASE_ID + (x - BASE_START) + (y - BASE_START) * 1024

/-- Model of `get_id`: the decimal string of the numeric cell id. -/
def get_id (x y : ℤ) : String :=
  toString (get_id_val x y)

/-!
`src/src/bot/topic_manager/sender.py`, `MessageSender`: the split path.
The outcome of transmitting one part over Telegram (including the one
internal `TelegramRetryAfter` retry of `_send_message_part`) is abstracted
by an oracle `f : ℕ → Bool` giving the success of the `i`-th part, and the
outcome of the whole non-split send by a boolean `single_send`.
-/

namespace MessageSender

/-- Loop body of `MessageSender._split_messages_into_parts`: the
accumulator is `(parts, current_part, current_size)`; a line that would
push `current_size` over 3500 bytes closes the current part. -/
def split_go (acc : List (List PriceMessage) × List PriceMessage × ℕ)
    (msg : PriceMessage) : List (List PriceMessage) × List PriceMessage × ℕ :=
  let line_size := (MessageFormatter.format_message msg).utf8ByteSize + 2
  if 3500 < acc.2.2 + line_size then
    if acc.2.1 ≠ [] then (acc.1 ++ [acc.2.1], [msg], line_size)
    else (acc.1 ++ [[msg]], [], 0)
  else (acc.1, acc.2.1 ++ [msg], acc.2.2 + line_size)

/-- Model of `MessageSender._split_messages_into_parts`. -/
def split_messages_into_parts (messages : List PriceMessage) :
    List (List PriceMessage) :=
  let final := messages.foldl split_go ([], [], 0)
  if final.2.1 ≠ [] then final.1 ++ [final.2.1] else final.1

/-- Model of `MessageSender._send_large_message_in_parts` (lines 86–105): send every
part, count the successes, and return `success_count > 0`. -/
def send_large_message_in_parts (messages : List PriceMessage)
    (f : ℕ → Bool) : Bool :=
  let parts := split_messages_into_parts messages
  let success_count := ((List.range parts.length).filter fun i => f i).length
  decide (0 < success_count)

/-- Model of `MessageSender.send_batch_to_topic`, restricted to its size dispatch
(lines 39–42): a combined message over 4000 UTF-8 bytes is delegated to
`_send_large_message_in_parts`, whose boolean is returned unchanged;
otherwise the batch is sent as one message (outcome `single_send`,
produced by the retry loop of lines 44–84). -/
def send_batch_to_topic (messages : List PriceMessage) (f : ℕ → Bool)
    (single_send : Bool) : Bool :=
  if 4000 < (MessageFormatter.format_batch_message messages).utf8ByteSize then
    send_large_message_in_parts messages f
  else single_send

end MessageSender


/-! Concrete states used by witnesses and counterexamples, and the protocol invariant. -/

/-- C3 counterexample state: `min_batch_size = 5`, timeout 120 s; one record
is added at time 0, the first poll happens at time 100. -/
def c3_state : MessageQueue :=
  (((MessageQueue.init 5 20 120).add_message 5 1 1 "l" 0).get_ready_batches 100).2

/-- C8 witness state for the amended theorem. -/
def c8_state : MessageQueue := MessageQueue.init 1 20 120

/-- C4 witness state: `min_batch_size = 1`, `max_batch_size = 2`, three
records in category 5. -/
def c4_state : MessageQueue :=
  (((MessageQueue.init 1 2 120).add_message 5 1 1 "a" 0).add_message
      5 2 2 "b" 1).add_message 5 3 3 "c" 2

/-- C1 counterexample: `max_batch_size = 1`, two records in category 5; the
ready batch is only the newer record, yet a successful send clears both. -/
def c1_state : MessageQueue :=
  ((MessageQueue.init 1 1 120).add_message 5 1 1 "a" 0).add_message 5 2 2 "b" 1

/-- C5 witness state for the amended theorem. -/
def c5_rl : RateLimiter := ⟨3, 15, 100, 4, 80, 0⟩

/-- Invariant of the refresh protocol: while the token is expired no caller
has returned and no refresh has been issued; once it is valid exactly one
refresh has been issued. -/
def token_inv {n : ℕ} (s : TokenState n) : Prop :=
  (s.expired = true → s.refreshCount = 0 ∧ ∀ i, s.callers i ≠ .done) ∧
  (s.expired = false → s.refreshCount = 1)

/-- The final state of the C2 witness execution: one caller, token
refreshed once, caller returned. -/
def c2_final : TokenState 1 := ⟨false, 1, fun _ => .done⟩


-- ===== Theorems: queue cluster =====

/-- Helper: `_get_last_messages` is the suffix of length at most
`max_batch_size`. -/
theorem get_last_messages_eq_drop (q : MessageQueue) (l : List PriceMessage) :
    q.get_last_messages l = l.drop (l.length - q.max_batch_size) := by
  by_cases h : l = [] <;> simp [MessageQueue.get_last_messages, h]

/-- C3 (amended): a category yields a ready batch iff its backlog is
non-empty and either the backlog has reached `min_batch_size` or
`incomplete_batch_timeout` has elapsed since the recorded first-message
time (the time of the first poll that saw the backlog non-empty; a
category without a recorded time uses the current poll time). -/
theorem c3_ready_iff (q : MessageQueue) (now c : ℚ) :
    ((q.get_ready_batches now).1 c).isSome = true ↔
      (q.message_queues c ≠ [] ∧
        (q.min_batch_size ≤ (q.message_queues c).length ∨
          q.incomplete_batch_timeout ≤
            now - (q.first_message_time c).getD now)) := by
  simp only [MessageQueue.get_ready_batches]
  by_cases h0 : q.message_queues c = []
  · simp [h0]
  · by_cases h1 : q.min_batch_size ≤ (q.message_queues c).length
    · simp [h0, h1]
    · have hpos : 0 < (q.message_queues c).length := List.length_pos.mpr h0
      by_cases h2 : q.incomplete_batch_timeout ≤
          now - (q.first_message_time c).getD now
      · simp [h0, h1, h2, hpos]
      · simp [h0, h1, h2]

/-- C3 counterexample: at time 130 the oldest (only) pending record of
category 5 was added 130 ≥ 120 seconds ago, so the claim says the category
yields a batch; the code measures from the first poll (time 100), sees only
30 s, and yields none. -/
theorem c3_counterexample :
    c3_state.message_queues 5 = [⟨5, 1, 1, "l", 0⟩] ∧
    (∀ m ∈ c3_state.message_queues 5,
      c3_state.incomplete_batch_timeout ≤ 130 - m.timestamp) ∧
    (c3_state.get_ready_batches 130).1 5 = none := by
  refine ⟨?_, ?_, ?_⟩
  · norm_num [c3_state, MessageQueue.init, MessageQueue.add_message,
      MessageQueue.get_ready_batches]
  · intro m hm
    norm_num [c3_state, MessageQueue.init, MessageQueue.add_message,
      MessageQueue.get_ready_batches] at hm
    norm_num [hm, c3_state, MessageQueue.init, MessageQueue.add_message,
      MessageQueue.get_ready_batches]
  · norm_num [c3_state, MessageQueue.init, MessageQueue.add_message,
      MessageQueue.get_ready_batches]

/-- C4: with a configuration where `min_batch_size ≤ max_batch_size` (the
program always constructs the queue this way, 1 ≤ 20), every ready batch of
`get_ready_batches` and of `flush_all_queues` has at most `max_batch_size`
records, and a backlog over the cap yields exactly the suffix of
`max_batch_size` most recently added records in arrival order. -/
theorem c4_batch_cap (q : MessageQueue) (now c : ℚ)
    (h : q.min_batch_size ≤ q.max_batch_size) :
    (∀ b, (q.get_ready_batches now).1 c = some b →
      b.length ≤ q.max_batch_size ∧
      (q.max_batch_size < (q.message_queues c).length →
        b.length = q.max_batch_size ∧
        b = (q.message_queues c).drop
              ((q.message_queues c).length - q.max_batch_size))) ∧
    (∀ b, (q.flush_all_queues).1 c = some b →
      b.length ≤ q.max_batch_size ∧
      (q.max_batch_size < (q.message_queues c).length →
        b.length = q.max_batch_size ∧
        b = (q.message_queues c).drop
              ((q.message_queues c).length - q.max_batch_size))) := by
  have hdrop : ∀ b, b = q.get_last_messages (q.message_queues c) →
      b.length ≤ q.max_batch_size ∧
      (q.max_batch_size < (q.message_queues c).length →
        b.length = q.max_batch_size ∧
        b = (q.message_queues c).drop
              ((q.message_queues c).length - q.max_batch_size)) := by
    intro b hb
    rw [hb, get_last_messages_eq_drop]
    constructor
    · rw [List.length_drop]; omega
    · intro hlt
      refine ⟨?_, rfl⟩
      rw [List.length_drop]; omega
  constructor
  · intro b hb
    simp only [MessageQueue.get_ready_batches] at hb
    by_cases h0 : q.message_queues c = []
    · simp [h0] at hb
    · by_cases h1 : q.min_batch_size ≤ (q.message_queues c).length
      · simp only [h0, if_false, h1, if_true, Option.some.injEq] at hb
        exact hdrop b hb.symm
      · by_cases h2 : 0 < (q.message_queues c).length ∧
            q.incomplete_batch_timeout ≤
              now - (q.first_message_time c).getD now
        · rw [if_neg h0, if_neg h1, if_pos h2, Option.some.injEq] at hb
          subst hb
          constructor
          · omega
          · intro hlt; omega
        · simp [h0, h1, h2] at hb
  · intro b hb
    simp only [MessageQueue.flush_all_queues] at hb
    by_cases h0 : q.message_queues c = []
    · simp [h0] at hb
    · simp only [h0, if_false, Option.some.injEq] at hb
      exact hdrop b hb.symm

/-- C8 counterexample: `add_message` into an empty category leaves a
non-empty pending sequence with no first-message timestamp, so the
"present iff non-empty" invariant does not hold after every operation. -/
theorem c8_counterexample :
    ((MessageQueue.init 1 20 120).add_message 5 1 2 "l" 0).message_queues 5 ≠ [] ∧
    ((MessageQueue.init 1 20 120).add_message 5 1 2 "l" 0).first_message_time 5 =
      none := by
  constructor
  · simp [MessageQueue.init, MessageQueue.add_message]
  · simp [MessageQueue.init, MessageQueue.add_message]

/-- C8 (amended): the timestamp-presence invariant holds after every
`get_ready_batches` poll (which lazily records and prunes the timestamps)
and is preserved by `clear_sent_messages`; `add_message` (see the
counterexample) and `flush_all_queues` restore it only at the next poll. -/
theorem c8_inv_poll_clear (q : MessageQueue) (now c : ℚ) (h : q.time_inv) :
    ((q.get_ready_batches now).2).time_inv ∧
    (q.clear_sent_messages c).time_inv := by
  constructor
  · intro c2
    simp only [MessageQueue.get_ready_batches]
    by_cases h0 : q.message_queues c2 = [] <;> simp [h0]
  · intro c2
    by_cases hc : c2 = c
    · subst hc
      simp [MessageQueue.clear_sent_messages]
    · simp only [MessageQueue.clear_sent_messages]
      rw [Function.update_noteq hc, Function.update_noteq hc]
      exact h c2

theorem c8_inv_poll_clear_witness :
    ((c8_state.get_ready_batches 0).2).time_inv ∧
    (c8_state.clear_sent_messages 5).time_inv :=
  c8_inv_poll_clear c8_state 0 5
    (fun c => by simp [c8_state, MessageQueue.init])

theorem c4_batch_cap_witness :
    ([⟨5, 2, 2, "b", 1⟩, ⟨5, 3, 3, "c", 2⟩] : List PriceMessage).length ≤
      c4_state.max_batch_size ∧
    c4_state.max_batch_size < (c4_state.message_queues 5).length := by
  have happ := (c4_batch_cap c4_state 10 5 (by
      norm_num [c4_state, MessageQueue.init, MessageQueue.add_message])).1
    [⟨5, 2, 2, "b", 1⟩, ⟨5, 3, 3, "c", 2⟩] (by
      norm_num [c4_state, MessageQueue.init, MessageQueue.add_message,
        MessageQueue.get_ready_batches, MessageQueue.get_last_messages,
        List.cons_ne_nil])
  refine ⟨happ.1, ?_⟩
  norm_num [c4_state, MessageQueue.init, MessageQueue.add_message]

-- ===== C1 =====

/-- C1 counterexample: the ready batch for category 5 is the single newest
record, the older record is still queued and is not part of the batch, but
after a successful send (`process_category` with `send_ok = true`) the whole
backlog — including the older record — is gone, contradicting "records not
in the batch remain queued". -/
theorem c1_counterexample :
    (c1_state.get_ready_batches 10).1 5 = some [⟨5, 2, 2, "b", 1⟩] ∧
    (⟨5, 1, 1, "a", 0⟩ : PriceMessage) ∈
      ((c1_state.get_ready_batches 10).2).message_queues 5 ∧
    (⟨5, 1, 1, "a", 0⟩ : PriceMessage) ∉ [(⟨5, 2, 2, "b", 1⟩ : PriceMessage)] ∧
    (TopicManager.process_category ((c1_state.get_ready_batches 10).2)
        5 true true).message_queues 5 = [] := by
  refine ⟨?_, ?_, ?_, ?_⟩
  · norm_num [c1_state, MessageQueue.init, MessageQueue.add_message,
      MessageQueue.get_ready_batches, MessageQueue.get_last_messages,
      List.cons_ne_nil]
  · norm_num [c1_state, MessageQueue.init, MessageQueue.add_message,
      MessageQueue.get_ready_batches]
  · norm_num
  · norm_num [c1_state, MessageQueue.init, MessageQueue.add_message,
      MessageQueue.get_ready_batches, TopicManager.process_category,
      MessageQueue.clear_sent_messages]

/-- C1 (amended): a failed send (or a failed topic lookup) leaves the whole
queue state unchanged; a successful send clears the category's entire
backlog — not just the sent batch — while other categories are untouched. -/
theorem c1_clear_behaviour (q : MessageQueue) (c : ℚ) :
    (∀ ok, TopicManager.process_category q c false ok = q) ∧
    TopicManager.process_category q c true false = q ∧
    (TopicManager.process_category q c true true).message_queues c = [] ∧
    (∀ c2, c2 ≠ c →
      (TopicManager.process_category q c true true).message_queues c2 =
        q.message_queues c2) := by
  refine ⟨fun ok => rfl, rfl, ?_, ?_⟩
  · simp [TopicManager.process_category, MessageQueue.clear_sent_messages]
  · intro c2 hc
    simp only [TopicManager.process_category, if_true,
      MessageQueue.clear_sent_messages]
    exact Function.update_noteq hc _ _

theorem c1_clear_behaviour_witness :
    (TopicManager.process_category c1_state 5 true true).message_queues 7 =
      c1_state.message_queues 7 :=
  (c1_clear_behaviour c1_state 5).2.2.2 7 (by norm_num)

-- ===== C5 =====

/-- Helper: `check_group_limit` only changes the window counter and the
window start. -/
theorem check_group_limit_fields (s : RateLimiter) (now : ℚ) :
    ((s.check_group_limit now).1).min_send_interval = s.min_send_interval ∧
    ((s.check_group_limit now).1).max_group_messages_per_minute =
      s.max_group_messages_per_minute ∧
    ((s.check_group_limit now).1).last_send_time = s.last_send_time := by
  simp only [RateLimiter.check_group_limit]
  split <;> split <;> simp

/-- Helper: `wait_if_needed` never returns earlier than
`last_send_time + min_send_interval`. -/
theorem wait_if_needed_lower (s : RateLimiter) (now : ℚ) :
    s.last_send_time + s.min_send_interval ≤ s.wait_if_needed now := by
  simp only [RateLimiter.wait_if_needed]
  split
  · linarith
  · linarith [not_lt.mp (by assumption : ¬ now - s.last_send_time < s.min_send_interval)]

/-- C5 counterexample trace: cap 1 message per minute, minimum interval 3 s,
window opened at time 0.  The first send is requested at t = 50, the second
11 s after the first completed. -/
theorem c5_counterexample :
    (RateLimiter.run_trace ⟨3, 1, 0, 0, 0, 0⟩ 0 [50, 11]).1 = [50, 61] ∧
    1 < RateLimiter.sends_in_window [50, 61] 1 := by
  constructor
  · norm_num [RateLimiter.run_trace, RateLimiter.send_step,
      RateLimiter.check_group_limit, RateLimiter.wait_if_needed,
      RateLimiter.update_after_send]
  · norm_num [RateLimiter.sends_in_window, List.filter]

/-- C5 (amended): one pass through `check_group_limit` and `wait_if_needed`
(a `send_step`) never records a send earlier than `min_send_interval` after
the previously recorded send, and — as long as the cap is at least 1 — the
per-window counter never exceeds `max_group_messages_per_minute`; the cap
is per lazily-reset counter window, not per rolling 60-second window (see
the counterexample). -/
theorem c5_budget (s : RateLimiter) (now : ℚ)
    (hcap : 1 ≤ s.max_group_messages_per_minute) :
    s.last_send_time + s.min_send_interval ≤ (s.send_step now).2 ∧
    ((s.send_step now).1).group_message_count ≤
      s.max_group_messages_per_minute := by
  obtain ⟨hmin, hmax, hlast⟩ := check_group_limit_fields s now
  constructor
  · show s.last_send_time + s.min_send_interval ≤
      ((s.check_group_limit now).1).wait_if_needed (s.check_group_limit now).2
    calc s.last_send_time + s.min_send_interval
        = ((s.check_group_limit now).1).last_send_time +
            ((s.check_group_limit now).1).min_send_interval := by
          rw [hmin, hlast]
      _ ≤ _ := wait_if_needed_lower _ _
  · show ((s.check_group_limit now).1).group_message_count + 1 ≤
      s.max_group_messages_per_minute
    have : ((s.check_group_limit now).1).group_message_count = 0 ∨
        ((s.check_group_limit now).1).group_message_count <
          s.max_group_messages_per_minute := by
      simp only [RateLimiter.check_group_limit]
      split <;> split <;> simp_all
    omega

theorem c5_budget_witness :
    c5_rl.last_send_time + c5_rl.min_send_interval ≤ (c5_rl.send_step 101).2 ∧
    ((c5_rl.send_step 101).1).group_message_count ≤
      c5_rl.max_group_messages_per_minute :=
  c5_budget c5_rl 101 (by norm_num [c5_rl])

-- ===== C2 =====

theorem token_inv_init (n : ℕ) : token_inv (TokenState.init n) := by
  constructor
  · intro _
    exact ⟨rfl, fun i => by simp [TokenState.init]⟩
  · intro h
    simp [TokenState.init] at h

theorem token_inv_step {n : ℕ} {s t : TokenState n}
    (h : TokenStep s t) (hs : token_inv s) : token_inv t := by
  cases h with
  | check_expired i hc he =>
    refine ⟨fun _ => ⟨(hs.1 he).1, fun j => ?_⟩, fun hf => by simp_all⟩
    by_cases hij : j = i
    · subst hij; simp [Function.update]
    · show Function.update s.callers i CallerState.waiting j ≠ CallerState.done
      rw [Function.update_noteq hij]
      exact (hs.1 he).2 j
  | check_valid i hc he =>
    exact ⟨fun ht => by simp_all, fun _ => hs.2 he⟩
  | refresh i hc he =>
    refine ⟨fun ht => by simp_all, fun _ => ?_⟩
    have := (hs.1 he).1
    simp [this]
  | lock_recheck i hc he =>
    exact ⟨fun ht => by simp_all, fun _ => hs.2 he⟩

theorem token_inv_reachable {n : ℕ} {s : TokenState n}
    (h : TokenReachable (TokenState.init n) s) : token_inv s := by
  induction h with
  | refl => exact token_inv_init n
  | tail _ hstep ih => exact token_inv_step hstep ih

/-- C2: in every interleaving of `n ≥ 1` concurrent callers of
`get_valid_access_token` that start on an expired credential (and whose
refresh succeeds), once all callers have returned exactly one refresh
request has been issued. -/
theorem c2_single_flight {n : ℕ} (s : TokenState n)
    (hreach : TokenReachable (TokenState.init n) s)
    (hdone : ∀ i, s.callers i = .done) (hn : 0 < n) :
    s.refreshCount = 1 := by
  have hinv := token_inv_reachable hreach
  cases hexp : s.expired with
  | false => exact hinv.2 hexp
  | true => exact absurd (hdone ⟨0, hn⟩) ((hinv.1 hexp).2 ⟨0, hn⟩)

theorem c2_single_flight_witness : c2_final.refreshCount = 1 := by
  have s1eq : Function.update (fun _ : Fin 1 => CallerState.start) 0
      CallerState.waiting = fun _ : Fin 1 => CallerState.waiting := by
    funext j
    fin_cases j
    simp [Function.update]
  have h1 : TokenStep (TokenState.init 1)
      (⟨true, 0, fun _ => .waiting⟩ : TokenState 1) := by
    have := TokenStep.check_expired (TokenState.init 1) 0 rfl rfl
    simpa [TokenState.init, s1eq] using this
  have h2 : TokenStep (⟨true, 0, fun _ => .waiting⟩ : TokenState 1) c2_final := by
    have := TokenStep.refresh (⟨true, 0, fun _ => .waiting⟩ : TokenState 1) 0 rfl rfl
    have heq : Function.update (fun _ : Fin 1 => CallerState.waiting) 0
        CallerState.done = fun _ : Fin 1 => CallerState.done := by
      funext j
      fin_cases j
      simp [Function.update]
    simpa [c2_final, heq] using this
  exact c2_single_flight c2_final
    (Relation.ReflTransGen.head h1 (Relation.ReflTransGen.single h2))
    (fun i => rfl) (by norm_num)

-- ===== C6 =====

/-- C6: for a request issued with a usable token, a first response of 401
forces credential invalidation and — once a credential is re-acquired —
exactly one retry (two requests in total, never more than two in any case);
any other first status, and a transport error, is passed through with a
single request and no retry. -/
theorem c6_retry_once (env : ApiEnv) (tok : String)
    (h1 : env.token1 = some tok) :
    (api_get_with_refresh env).requests ≤ 2 ∧
    (env.first_status = some 401 →
      (api_get_with_refresh env).invalidated = true ∧
      (∀ tok2, env.token2 = some tok2 →
        (api_get_with_refresh env).requests = 2)) ∧
    (∀ st, env.first_status = some st → st ≠ 401 →
      api_get_with_refresh env = ⟨.response st, 1, false⟩) ∧
    (env.first_status = none →
      api_get_with_refresh env = ⟨.transport_error, 1, false⟩) := by
  obtain ⟨t1, fs, t2, ss⟩ := env
  simp only at h1
  subst h1
  refine ⟨?_, ?_, ?_, ?_⟩
  · cases fs with
    | none => simp [api_get_with_refresh]
    | some st =>
      by_cases hst : st = 401
      · subst hst
        cases t2 <;> cases ss <;> simp [api_get_with_refresh]
      · simp [api_get_with_refresh, hst]
  · intro hfs
    simp only at hfs
    subst hfs
    constructor
    · cases t2 <;> cases ss <;> simp [api_get_with_refresh]
    · intro tok2 ht2
      simp only at ht2
      subst ht2
      cases ss <;> simp [api_get_with_refresh]
  · intro st hfs hne
    simp only at hfs
    subst hfs
    simp [api_get_with_refresh, hne]
  · intro hfs
    simp only at hfs
    subst hfs
    simp [api_get_with_refresh]

theorem c6_retry_once_witness :
    (api_get_with_refresh ⟨some "a", some 401, some "b", some 200⟩).requests ≤ 2 ∧
    (api_get_with_refresh ⟨some "a", some 401, some "b", some 200⟩).invalidated =
      true ∧
    (api_get_with_refresh ⟨some "a", some 401, some "b", some 200⟩).requests = 2 := by
  have h' := c6_retry_once ⟨some "a", some 401, some "b", some 200⟩ "a" rfl
  exact ⟨h'.1, (h'.2.1 rfl).1, (h'.2.1 rfl).2 "b" rfl⟩

-- ===== C7 =====

/-- C7: a successful cell response with an empty item address is classified
with the sentinel cost 1 and status `for_mint` / `for_mint_not_available`
by the availability flag; a non-empty item address with price `P` minor
units is classified with cost exactly `P / 10⁹` and status `available` /
`occupied` by the availability flag. -/
theorem c7_classification (itemAddress : String) (isAvailable : Bool) (P : ℕ) :
    (itemAddress = "" →
      process_successful_response itemAddress isAvailable P =
        (1, if isAvailable then .for_mint else .for_mint_not_available)) ∧
    (itemAddress ≠ "" →
      (process_successful_response itemAddress isAvailable P).1 =
        (P : ℚ) / 10 ^ 9 ∧
      (process_successful_response itemAddress isAvailable P).2 =
        if isAvailable then .available else .occupied) := by
  constructor
  · intro h
    simp [process_successful_response, h]
  · intro h
    constructor
    · by_cases hP : P = 0
      · simp [process_successful_response, h, hP]
      · simp [process_successful_response, h, hP]
        norm_num
    · simp [process_successful_response, h]

theorem c7_classification_witness :
    (process_successful_response "" true 7 =
      (1, CellStatus.for_mint)) ∧
    (process_successful_response "EQabc" false 5).1 = (5 : ℚ) / 10 ^ 9 ∧
    (process_successful_response "EQabc" false 5).2 = CellStatus.occupied := by
  have h1 := (c7_classification "" true 7).1 rfl
  have h2 := (c7_classification "EQabc" false 5).2 (by simp)
  exact ⟨by simpa using h1, h2.1, by simpa using h2.2⟩

-- ===== C10 =====

/-- C10: `send_batch_to_topic` delegates an over-4000-byte batch to
`_send_large_message_in_parts`, returning its boolean unchanged, and
`_send_large_message_in_parts` returns `true` iff at least one of the split
parts is sent successfully — so a partially failed split send is still
reported as delivered, and `false` is returned only when every part
fails. -/
theorem c10_split_send (messages : List PriceMessage) (f : ℕ → Bool)
    (single_send : Bool) :
    MessageSender.send_batch_to_topic messages f single_send =
      (if 4000 <
          (MessageFormatter.format_batch_message messages).utf8ByteSize then
        MessageSender.send_large_message_in_parts messages f
      else single_send) ∧
    (MessageSender.send_large_message_in_parts messages f = true ↔
      ∃ i, i < (MessageSender.split_messages_into_parts messages).length ∧
        f i = true) := by
  refine ⟨rfl, ?_⟩
  simp only [MessageSender.send_large_message_in_parts, decide_eq_true_eq,
    List.length_pos, ne_eq, List.filter_eq_nil_iff, List.mem_range]
  push_neg
  simp only [exists_prop]

-- ===== C9 =====

/-- Helper: `Nat.digitChar` is injective on digits below 10. -/
theorem digitChar_inj_lt (a b : ℕ) (ha : a < 10) (hb : b < 10)
    (h : Nat.digitChar a = Nat.digitChar b) : a = b := by
  interval_cases a <;> interval_cases b <;> revert h <;> decide

/-- Helper: mapping `Nat.digitChar` over lists of digits below 10 is
injective. -/
theorem map_digitChar_inj : ∀ (l1 l2 : List ℕ),
    (∀ x ∈ l1, x < 10) → (∀ x ∈ l2, x < 10) →
    l1.map Nat.digitChar = l2.map Nat.digitChar → l1 = l2
  | [], [], _, _, _ => rfl
  | [], _ :: _, _, _, h => by simp at h
  | _ :: _, [], _, _, h => by simp at h
  | a :: l1, b :: l2, h1, h2, h => by
    simp only [List.map_cons, List.cons.injEq] at h
    have hab := digitChar_inj_lt a b (h1 a (by simp)) (h2 b (by simp)) h.1
    have hl := map_digitChar_inj l1 l2 (fun x hx => h1 x (by simp [hx]))
      (fun x hx => h2 x (by simp [hx])) h.2
    rw [hab, hl]

/-- Helper: with enough fuel, `Nat.toDigitsCore` produces exactly the
base-10 digits of `n` (most significant first) in front of the
accumulator. -/
theorem toDigitsCore_eq_digits : ∀ (fuel n : ℕ) (ds : List Char),
    0 < n → n ≤ fuel →
    Nat.toDigitsCore 10 fuel n ds =
      ((Nat.digits 10 n).map Nat.digitChar).reverse ++ ds := by
  intro fuel
  induction fuel with
  | zero => intro n ds h0 hf; omega
  | succ fuel ih =>
    intro n ds h0 hf
    rw [Nat.digits_def' (by norm_num : (1:ℕ) < 10) h0]
    simp only [Nat.toDigitsCore]
    by_cases hq : n / 10 = 0
    · rw [if_pos hq, hq]
      simp
    · rw [if_neg hq]
      have hq0 : 0 < n / 10 := Nat.pos_of_ne_zero hq
      have hqf : n / 10 ≤ fuel := by
        have := Nat.div_lt_self h0 (by norm_num : 1 < 10)
        omega
      rw [ih (n / 10) (Nat.digitChar (n % 10) :: ds) hq0 hqf]
      simp

/-- Helper: `Nat.repr` is injective. -/
theorem nat_repr_inj {n m : ℕ} (h : Nat.repr n = Nat.repr m) : n = m := by
  have hchars : Nat.toDigits 10 n = Nat.toDigits 10 m := by
    have hd := congrArg String.data h
    simpa [Nat.repr, List.asString] using hd
  have hzero : ∀ k : ℕ, 0 < k →
      Nat.toDigits 10 k = ((Nat.digits 10 k).map Nat.digitChar).reverse := by
    intro k hk
    rw [Nat.toDigits, toDigitsCore_eq_digits (k + 1) k [] hk (by omega)]
    simp
  have honec : ∀ k : ℕ, 0 < k → Nat.toDigits 10 k ≠ ['0'] := by
    intro k hk hcon
    rw [hzero k hk] at hcon
    have hrev : List.map Nat.digitChar (Nat.digits 10 k) = ['0'] := by
      have := congrArg List.reverse hcon
      simpa using this
    obtain ⟨d, hd⟩ : ∃ d, Nat.digits 10 k = [d] := by
      have hlen := congrArg List.length hrev
      simp only [List.length_map, List.length_cons, List.length_nil] at hlen
      cases hdig : Nat.digits 10 k with
      | nil => rw [hdig] at hlen; simp at hlen
      | cons d tl =>
        rw [hdig] at hlen
        simp only [List.length_cons, Nat.add_right_cancel_iff,
          List.length_eq_zero] at hlen
        exact ⟨d, by rw [hlen]⟩
    rw [hd] at hrev
    simp only [List.map_cons, List.map_nil, List.cons.injEq, and_true] at hrev
    have hd10 : d < 10 :=
      Nat.digits_lt_base (by norm_num) (by rw [hd]; simp)
    have hdz : d = 0 :=
      digitChar_inj_lt d 0 hd10 (by norm_num) (hrev.trans (by decide))
    have := Nat.ofDigits_digits 10 k
    rw [hd, hdz] at this
    simp [Nat.ofDigits] at this
    omega
  rcases Nat.eq_zero_or_pos n with hn | hn
  · rcases Nat.eq_zero_or_pos m with hm | hm
    · omega
    · exfalso
      subst hn
      exact honec m hm (hchars.symm.trans (by decide))
  · rcases Nat.eq_zero_or_pos m with hm | hm
    · exfalso
      subst hm
      exact honec n hn (hchars.trans (by decide))
    · rw [hzero n hn, hzero m hm] at hchars
      have hmap := congrArg List.reverse hchars
      simp only [List.reverse_reverse] at hmap
      have hdig := map_digitChar_inj (Nat.digits 10 n) (Nat.digits 10 m)
        (fun x hx => Nat.digits_lt_base (by norm_num) hx)
        (fun x hx => Nat.digits_lt_base (by norm_num) hx) hmap
      have := congrArg (Nat.ofDigits 10) hdig
      rwa [Nat.ofDigits_digits, Nat.ofDigits_digits] at this

/-- Helper: `toString` on non-negative integers is injective. -/
theorem int_toString_inj {a b : ℤ} (ha : 0 ≤ a) (hb : 0 ≤ b)
    (h : toString a = toString b) : a = b := by
  lift a to ℕ using ha
  lift b to ℕ using hb
  have hr : Nat.repr a = Nat.repr b := h
  exact_mod_cast congrArg Nat.cast (nat_repr_inj hr)

/-- C9: on the configured grid `[BASE_START, BASE_END]²`, `get_id` is
injective (distinct coordinates give distinct id strings) and the
underlying numeric id `BASE_ID + (x - BASE_START) + (y - BASE_START) * 1024`
is strictly increasing in row-major order. -/
theorem c9_get_id (x1 y1 x2 y2 : ℤ)
    (hx1 : BASE_START ≤ x1 ∧ x1 ≤ BASE_END)
    (hy1 : BASE_START ≤ y1 ∧ y1 ≤ BASE_END)
    (hx2 : BASE_START ≤ x2 ∧ x2 ≤ BASE_END)
    (hy2 : BASE_START ≤ y2 ∧ y2 ≤ BASE_END) :
    (get_id x1 y1 = get_id x2 y2 → x1 = x2 ∧ y1 = y2) ∧
    (y1 < y2 ∨ (y1 = y2 ∧ x1 < x2) →
      get_id_val x1 y1 < get_id_val x2 y2) := by
  simp only [BASE_START, BASE_END] at hx1 hy1 hx2 hy2
  constructor
  · intro h
    have h1 : (0:ℤ) ≤ get_id_val x1 y1 := by
      simp only [get_id_val, BASE_ID, BASE_START]; omega
    have h2 : (0:ℤ) ≤ get_id_val x2 y2 := by
      simp only [get_id_val, BASE_ID, BASE_START]; omega
    have hv := int_toString_inj h1 h2 h
    simp only [get_id_val, BASE_ID, BASE_START] at hv
    omega
  · intro h
    simp only [get_id_val, BASE_ID, BASE_START]
    rcases h with h | ⟨hy, hx⟩ <;> omega

theorem c9_get_id_witness :
    ((256:ℤ) ≤ 300 ∧ (300:ℤ) ≤ 657) ∧
    get_id_val 300 256 < get_id_val 256 257 :=
  ⟨⟨by norm_num, by norm_num⟩,
    (c9_get_id 300 256 256 257
      ⟨by norm_num [BASE_START], by norm_num [BASE_END]⟩
      ⟨by norm_num [BASE_START], by norm_num [BASE_END]⟩
      ⟨by norm_num [BASE_START], by norm_num [BASE_END]⟩
      ⟨by norm_num [BASE_START], by norm_num [BASE_END]⟩).2
      (Or.inl (by norm_num))⟩

end PixelChecker
